import Mathlib

/-!
# Shogun distances: `CJensenMetric` and `CMinkowskiMetric`

A shallow embedding of `src/libshogun/distance/JensenMetric.cpp` and of the formula that
`src/libshogun/distance/MinkowskiMetric.h` documents.

* `float64_t` is read as an ordered field `α` (the theorems instantiate it with `ℝ`),
  and `log` and `pow` are parameters of the embedding (the theorems instantiate them with
  `Real.log` and `Real.rpow`).
* The arithmetic is exact: rounding, overflow, underflow and the special values of
  IEEE binary64 are not represented, so only properties that do not depend on them are
  stated.
* A feature vector (`float64_t*` together with its length) is a `List α`.
* The object state (`lhs`, `rhs`) and the state of the feature vector accessor are passed
  explicitly.
-/

namespace Shogun

/-! ## Feature collections -/

/-- Modelled from the spec: the Feature Vector Accessor of a `CSimpleFeatures<float64_t>`
collection (`features/SimpleFeatures.h` is not among the sources).  The spec gives
`fetch(collection, index) -> (vector, length, ownsFlag)`; the length is the length of the
returned vector, the flag says whether the vector is a fresh copy. -/
structure CSimpleFeatures (α : Type) where
  /-- the vector stored at an index and the ownership flag the fetch reports -/
  get_feature_vector : Int → List α × Bool

/-- Modelled from the spec: a `CFeatures*` handle, "polymorphic over the general Features
capability".  It either is a float64 simple-vector collection or a collection of another
concrete type (`features/Features.h` is not among the sources). -/
inductive CFeatures (α : Type) where
  | simple (f : CSimpleFeatures α)
  | other

/-- Whether a handle can be viewed as `CSimpleFeatures<float64_t>`. -/
def CFeatures.isSimple {α : Type} : CFeatures α → Bool
  | .simple _ => true
  | .other => false

/-! ## Accessor state -/

/-- Which side of the binding a vector was fetched from. -/
inductive Side where
  | left
  | right
  deriving DecidableEq, Repr

/-- A fetched vector that has not been released yet. -/
structure Fetched (α : Type) where
  side : Side
  vec : List α
  idx : Int
  free : Bool
  deriving DecidableEq

/-- One call of the accessor interface. -/
inductive AccessorCall where
  | fetch (side : Side) (idx : Int) (free : Bool)
  | release (side : Side) (idx : Int) (free : Bool)
  deriving DecidableEq, Repr

/-- Modelled from the spec: the observable state of the Feature Vector Accessor, the
multiset of outstanding fetched vectors and the history of accessor calls. -/
structure Accessor (α : Type) where
  outstanding : Multiset (Fetched α)
  calls : List AccessorCall

/-- Modelled from the spec: `fetch(collection, index) -> (vector, length, ownsFlag)`
(`CSimpleFeatures::get_feature_vector(num, len, free)`). -/
def Accessor.get_feature_vector {α : Type} (acc : Accessor α) (side : Side)
    (c : CSimpleFeatures α) (num : Int) : (List α × Nat × Bool) × Accessor α :=
  let vec := (c.get_feature_vector num).1
  let free := (c.get_feature_vector num).2
  ((vec, vec.length, free),
   { outstanding := ⟨side, vec, num, free⟩ ::ₘ acc.outstanding,
     calls := acc.calls ++ [AccessorCall.fetch side num free] })

/-- Modelled from the spec: `release(collection, vector, index, ownsFlag) -> void`
(`CSimpleFeatures::free_feature_vector(vec, num, free)`). -/
def Accessor.free_feature_vector {α : Type} [DecidableEq α] (acc : Accessor α) (side : Side)
    (vec : List α) (num : Int) (free : Bool) : Accessor α :=
  { outstanding := acc.outstanding.erase ⟨side, vec, num, free⟩,
    calls := acc.calls ++ [AccessorCall.release side num free] }

/-! ## The distance object -/

/-- The binding held by a `CJensenMetric` object: the `lhs` and `rhs` members inherited
from `CDistance` (`none` is the null pointer). -/
structure CJensenMetric (α : Type) where
  lhs : Option (CFeatures α)
  rhs : Option (CFeatures α)

/-- The program state: the distance object and the accessor. -/
structure State (α : Type) where
  metric : CJensenMetric α
  accessor : Accessor α

/-- How a call can end without a value. -/
inductive Fatal where
  /-- `ASSERT(alen==blen)` fired -/
  | assertion
  /-- `lhs` or `rhs` is null or is not a `CSimpleFeatures<float64_t>` -/
  | invalidPointer
  deriving DecidableEq, Repr

/-- Modelled from the spec: the `ASSERT` macro (`lib/io.h` is not among the sources), an
"assertion-style fatal failure" that "terminates the computation rather than returning a
sentinel value" when its condition is false. -/
def ASSERT (c : Bool) : Except Fatal Unit :=
  if c then .ok () else .error Fatal.assertion

/-- Modelled from the spec: a `FILE*` stream, the "external byte sink" or source that the
persistence hooks are handed (`stdio.h` is outside the sources); its state is the bytes it
holds. -/
structure FILE where
  bytes : List Nat
  deriving DecidableEq, Repr

namespace CJensenMetric

variable {α : Type} [LinearOrderedField α]

/-- `CJensenMetric::CJensenMetric()`: the base constructor leaves both references null. -/
def unbound : CJensenMetric α := { lhs := none, rhs := none }

/-- Body of the `for` loop of `CJensenMetric::compute` (JensenMetric.cpp, lines 72-76). -/
def loopBody (log : α → α) (avec bvec : List α) (result : α) (i : Nat) : α :=
  let absTmp := 0.5 * (avec.getD i 0 + bvec.getD i 0)
  let result := if avec.getD i 0 > 0 then result + avec.getD i 0 * log (avec.getD i 0 / absTmp)
    else result
  let result := if bvec.getD i 0 > 0 then result + bvec.getD i 0 * log (bvec.getD i 0 / absTmp)
    else result
  result

/-- The accumulating loop `for (i=0; i<alen; i++)` with `result=0` at entry
(JensenMetric.cpp, lines 67-79). -/
def loop (log : α → α) (avec bvec : List α) (alen : Nat) : α :=
  (List.range alen).foldl (loopBody log avec bvec) 0

/-- `CJensenMetric::compute(idx_a, idx_b)` (JensenMetric.cpp, lines 55-86). -/
def compute (log : α → α) (s : State α) (idx_a idx_b : Int) : Except Fatal α × State α :=
  match s.metric.lhs, s.metric.rhs with
  | some (.simple l), some (.simple r) =>
    let fa := s.accessor.get_feature_vector Side.left l idx_a
    let avec := fa.1.1
    let alen := fa.1.2.1
    let afree := fa.1.2.2
    let fb := fa.2.get_feature_vector Side.right r idx_b
    let bvec := fb.1.1
    let blen := fb.1.2.1
    let bfree := fb.1.2.2
    match ASSERT (alen == blen) with
    | .error e => (.error e, { s with accessor := fb.2 })
    | .ok () =>
      let result := loop log avec bvec alen
      let acc := fb.2.free_feature_vector Side.left avec idx_a afree
      let acc := acc.free_feature_vector Side.right bvec idx_b bfree
      (.ok result, { s with accessor := acc })
  | _, _ => (.error Fatal.invalidPointer, s)

/-- A sequence of `compute` calls on the same object, one after the other. -/
def computeAll (log : α → α) (s : State α) : List (Int × Int) → State α
  | [] => s
  | p :: ps => computeAll log (compute log s p.1 p.2).2 ps

/-- Modelled from the spec: `CSimpleDistance<float64_t>::init` (`distance/SimpleDistance.h`
is not among the sources).  "Fails with a TypeMismatch error if either argument cannot be
viewed as the concrete vector-of-float64 collection type the formula requires.  On success,
stores both references and returns success"; on failure nothing is stored. -/
def CSimpleDistance_init (m : CJensenMetric α) (l r : CFeatures α) : Bool × CJensenMetric α :=
  if l.isSimple && r.isSimple then (true, { lhs := some l, rhs := some r })
  else (false, m)

/-- `CJensenMetric::init(l, r)` (JensenMetric.cpp, lines 34-39). -/
def init (m : CJensenMetric α) (l r : CFeatures α) : Bool × CJensenMetric α :=
  let result := CSimpleDistance_init m l r
  result

/-- `CJensenMetric::CJensenMetric(l, r)` (JensenMetric.cpp, lines 23-27): the base
constructor, then `init(l, r)`, whose result is dropped.  The pointers are handed to `init`
as `CFeatures*`, so the handles keep that type here. -/
def mk_lr (l r : CFeatures α) : CJensenMetric α :=
  (init unbound l r).2

/-- `CJensenMetric::cleanup()` (JensenMetric.cpp, lines 41-43): the body is empty. -/
def cleanup (m : CJensenMetric α) : CJensenMetric α :=
  m

/-- `CJensenMetric::~CJensenMetric()` (JensenMetric.cpp, lines 29-32): calls `cleanup()`. -/
def destroy (m : CJensenMetric α) : CJensenMetric α :=
  cleanup m

/-- `CJensenMetric::load_init(src)` (JensenMetric.cpp, lines 45-48): `return false;`.
The object and the stream are not touched. -/
def load_init (m : CJensenMetric α) (src : FILE) : Bool × CJensenMetric α × FILE :=
  (false, m, src)

/-- `CJensenMetric::save_init(dest)` (JensenMetric.cpp, lines 50-53): `return false;`.
The object and the stream are not touched. -/
def save_init (m : CJensenMetric α) (dest : FILE) : Bool × CJensenMetric α × FILE :=
  (false, m, dest)

/-- The state in which `lhs` and `rhs` are the float64 simple collections `l` and `r`. -/
def bound (l r : CSimpleFeatures α) (acc : Accessor α) : State α :=
  { metric := { lhs := some (.simple l), rhs := some (.simple r) }, accessor := acc }

/-- The four accessor calls of one `compute(i, j)` that returns a value. -/
def callsOf (l r : CSimpleFeatures α) (p : Int × Int) : List AccessorCall :=
  [AccessorCall.fetch Side.left p.1 (l.get_feature_vector p.1).2,
   AccessorCall.fetch Side.right p.2 (r.get_feature_vector p.2).2,
   AccessorCall.release Side.left p.1 (l.get_feature_vector p.1).2,
   AccessorCall.release Side.right p.2 (r.get_feature_vector p.2).2]

/-- One guarded term of the Jensen-Shannon sum: `x * log (x / m)` when `x > 0`, else `0`. -/
def term (log : α → α) (x m : α) : α :=
  if x > 0 then x * log (x / m) else 0

/-- The guarded sum of the spec, `Σ_t [a_t·ln(a_t/m_t)]_{a_t>0} + [b_t·ln(b_t/m_t)]_{b_t>0}`
with `m_t = 0.5·(a_t + b_t)`, over `t = 0..n-1`. -/
def guardedSum (log : α → α) (a b : List α) (n : Nat) : α :=
  ∑ t in Finset.range n,
    (term log (a.getD t 0) (0.5 * (a.getD t 0 + b.getD t 0))
      + term log (b.getD t 0) (0.5 * (a.getD t 0 + b.getD t 0)))

end CJensenMetric

/-- A collection that stores the given vectors; out of range it yields the empty vector. -/
def CSimpleFeatures.ofList {α : Type} (vs : List (List α)) (free : Bool) : CSimpleFeatures α :=
  { get_feature_vector := fun num => (vs.getD num.toNat [], free) }

/-- The accessor with nothing outstanding and no calls made. -/
def Accessor.empty {α : Type} : Accessor α :=
  { outstanding := 0, calls := [] }

/-! ## `CMinkowskiMetric` (MinkowskiMetric.h) -/

/-- The parameter of a `CMinkowskiMetric` object: `float64_t k`
(MinkowskiMetric.h, lines 98-100). -/
structure CMinkowskiMetric (α : Type) where
  k : α

namespace CMinkowskiMetric

variable {α : Type} [LinearOrderedField α]

/-- Modelled from the spec: the score of `CMinkowskiMetric::compute`, which the header
declares (MinkowskiMetric.h, line 96) and documents (lines 24-27) but whose body
(MinkowskiMetric.cpp) is not among the sources.  "For two equal-length vectors a, b of
dimension n, d(a,b) = ( Σ_{t=0}^{n-1} |a_t − b_t|^k )^(1/k)", with the absolute value taken
before raising to `k`, no shortcut for any `k`, and the equal-length check of the shared
`compute` contract.  The power function is the parameter `pow`. -/
def compute (pow : α → α → α) (m : CMinkowskiMetric α) (a b : List α) : Except Fatal α :=
  match ASSERT (a.length == b.length) with
  | .error e => .error e
  | .ok () =>
    .ok (pow (∑ t in Finset.range a.length, pow |a.getD t 0 - b.getD t 0| m.k) (1 / m.k))

end CMinkowskiMetric

/-! ## Lemmas -/

namespace CJensenMetric

variable {α : Type} [LinearOrderedField α]

theorem loopBody_eq (log : α → α) (a b : List α) (acc : α) (i : Nat) :
    loopBody log a b acc i
      = acc + (term log (a.getD i 0) (0.5 * (a.getD i 0 + b.getD i 0))
          + term log (b.getD i 0) (0.5 * (a.getD i 0 + b.getD i 0))) := by
  unfold loopBody term
  generalize a.getD i 0 = x
  generalize b.getD i 0 = y
  by_cases hx : x > 0 <;> by_cases hy : y > 0 <;> simp [hx, hy, add_assoc]

theorem loop_eq_guardedSum (log : α → α) (a b : List α) (n : Nat) :
    loop log a b n = guardedSum log a b n := by
  unfold loop guardedSum
  induction n with
  | zero => simp
  | succ k ih =>
    rw [List.range_succ, List.foldl_append, ih, Finset.sum_range_succ]
    simp [loopBody_eq]

theorem compute_bound_fst (log : α → α) (l r : CSimpleFeatures α) (acc : Accessor α)
    (i j : Int) :
    (compute log (bound l r acc) i j).1
      = if (l.get_feature_vector i).1.length = (r.get_feature_vector j).1.length
        then .ok (loop log (l.get_feature_vector i).1 (r.get_feature_vector j).1
          (l.get_feature_vector i).1.length)
        else .error Fatal.assertion := by
  by_cases h : (l.get_feature_vector i).1.length = (r.get_feature_vector j).1.length
  · simp [compute, bound, Accessor.get_feature_vector, ASSERT, h]
  · simp [compute, bound, Accessor.get_feature_vector, ASSERT, h]

theorem compute_metric (log : α → α) (s : State α) (i j : Int) :
    (compute log s i j).2.metric = s.metric := by
  unfold compute
  split
  · dsimp only
    split <;> rfl
  · rfl

theorem compute_fst_congr (log : α → α) (s s' : State α) (i j : Int)
    (h : s.metric = s'.metric) : (compute log s i j).1 = (compute log s' i j).1 := by
  unfold compute
  rw [h]
  split
  · simp only [Accessor.get_feature_vector]
    split <;> rfl
  · rfl

theorem compute_bound_snd (log : α → α) (l r : CSimpleFeatures α) (acc : Accessor α)
    (i j : Int)
    (hlen : (l.get_feature_vector i).1.length = (r.get_feature_vector j).1.length) :
    (compute log (bound l r acc) i j).2
      = bound l r { outstanding := acc.outstanding,
                    calls := acc.calls ++ callsOf l r (i, j) } := by
  have hne : (⟨Side.right, (r.get_feature_vector j).1, j, (r.get_feature_vector j).2⟩ :
      Fetched α) ≠ ⟨Side.left, (l.get_feature_vector i).1, i, (l.get_feature_vector i).2⟩ := by
    intro h
    cases h
  simp only [compute, bound, Accessor.get_feature_vector, Accessor.free_feature_vector,
    ASSERT, hlen, beq_self_eq_true, if_true, callsOf]
  rw [Multiset.erase_cons_tail _ hne, Multiset.erase_cons_head, Multiset.erase_cons_head]
  simp

/-! ## The scoring rule (C1, C4) -/

/-- C1: for vectors of equal length fetched from the two sides, `compute` returns exactly
the guarded sum `Σ_{t<n} [a_t·ln(a_t/m_t) if a_t>0] + [b_t·ln(b_t/m_t) if b_t>0]` with
`m_t = 0.5·(a_t+b_t)`: the accumulating loop equals the closed form. -/
theorem compute_eq_guardedSum (l r : CSimpleFeatures ℝ) (acc : Accessor ℝ) (i j : Int)
    (a b : List ℝ) (ha : (l.get_feature_vector i).1 = a) (hb : (r.get_feature_vector j).1 = b)
    (hlen : a.length = b.length) :
    (compute Real.log (bound l r acc) i j).1
      = .ok (∑ t in Finset.range a.length,
          ((if a.getD t 0 > 0
              then a.getD t 0 * Real.log (a.getD t 0 / (0.5 * (a.getD t 0 + b.getD t 0)))
              else 0)
            + (if b.getD t 0 > 0
              then b.getD t 0 * Real.log (b.getD t 0 / (0.5 * (a.getD t 0 + b.getD t 0)))
              else 0))) := by
  rw [compute_bound_fst, ha, hb, if_pos hlen, loop_eq_guardedSum]
  rfl

theorem compute_eq_guardedSum_witness :
    ([1, 0] : List ℝ).length = ([0, 1] : List ℝ).length ∧
    (compute Real.log
        (bound (CSimpleFeatures.ofList [[1, 0]] false) (CSimpleFeatures.ofList [[0, 1]] true)
          Accessor.empty) 0 0).1
      = .ok (∑ t in Finset.range ([1, 0] : List ℝ).length,
          ((if ([1, 0] : List ℝ).getD t 0 > 0
              then ([1, 0] : List ℝ).getD t 0 * Real.log (([1, 0] : List ℝ).getD t 0
                / (0.5 * (([1, 0] : List ℝ).getD t 0 + ([0, 1] : List ℝ).getD t 0)))
              else 0)
            + (if ([0, 1] : List ℝ).getD t 0 > 0
              then ([0, 1] : List ℝ).getD t 0 * Real.log (([0, 1] : List ℝ).getD t 0
                / (0.5 * (([1, 0] : List ℝ).getD t 0 + ([0, 1] : List ℝ).getD t 0)))
              else 0))) :=
  ⟨rfl, compute_eq_guardedSum _ _ _ 0 0 [1, 0] [0, 1] rfl rfl rfl⟩

/-- C4: for `a = [1,0]` and `b = [0,1]`, `compute` returns exactly `2 * ln 2`. -/
theorem compute_example (l r : CSimpleFeatures ℝ) (acc : Accessor ℝ) (i j : Int)
    (ha : (l.get_feature_vector i).1 = [1, 0]) (hb : (r.get_feature_vector j).1 = [0, 1]) :
    (compute Real.log (bound l r acc) i j).1 = .ok (2 * Real.log 2) := by
  rw [compute_bound_fst, ha, hb,
    if_pos (show ([1, 0] : List ℝ).length = ([0, 1] : List ℝ).length from rfl)]
  have h : (1 : ℝ) / 0.5 = 2 := by norm_num
  simp [loop, loopBody, List.range_succ, h]
  ring

theorem compute_example_witness :
    (compute Real.log
        (bound (CSimpleFeatures.ofList [[1, 0]] false) (CSimpleFeatures.ofList [[0, 1]] false)
          Accessor.empty) 0 0).1 = .ok (2 * Real.log 2) :=
  compute_example _ _ _ 0 0 rfl rfl

/-! ## Failure, accessor discipline and purity (C5-C7) -/

/-- C5: on a bound object, `compute(i, j)` ends in the failed `ASSERT` exactly when the
vector fetched on the left at `i` and the one fetched on the right at `j` differ in length,
and it returns a value exactly when the two lengths are equal. -/
theorem compute_assert_iff (log : α → α) (l r : CSimpleFeatures α) (acc : Accessor α)
    (i j : Int) :
    ((compute log (bound l r acc) i j).1 = .error Fatal.assertion
        ↔ (l.get_feature_vector i).1.length ≠ (r.get_feature_vector j).1.length)
    ∧ ((∃ d : α, (compute log (bound l r acc) i j).1 = .ok d)
        ↔ (l.get_feature_vector i).1.length = (r.get_feature_vector j).1.length) := by
  rw [compute_bound_fst]
  by_cases h : (l.get_feature_vector i).1.length = (r.get_feature_vector j).1.length
  · simp [h]
  · simp [h]

/-- C6: in a run of `compute` calls that all return a value (the fetched lengths agree at
every index pair), each call makes exactly four accessor calls, one fetch per side followed
by one release per side with the index and the ownership flag of the matching fetch, and the
multiset of outstanding vectors after the run is the one before it. -/
theorem computeAll_no_leak (log : α → α) (l r : CSimpleFeatures α) (acc : Accessor α)
    (ps : List (Int × Int))
    (hlen : ∀ p ∈ ps,
      (l.get_feature_vector p.1).1.length = (r.get_feature_vector p.2).1.length) :
    (computeAll log (bound l r acc) ps).accessor.outstanding = acc.outstanding
    ∧ (computeAll log (bound l r acc) ps).accessor.calls
        = acc.calls ++ ps.flatMap (fun p =>
            [AccessorCall.fetch Side.left p.1 (l.get_feature_vector p.1).2,
             AccessorCall.fetch Side.right p.2 (r.get_feature_vector p.2).2,
             AccessorCall.release Side.left p.1 (l.get_feature_vector p.1).2,
             AccessorCall.release Side.right p.2 (r.get_feature_vector p.2).2])
    ∧ (computeAll log (bound l r acc) ps).metric = (bound l r acc).metric := by
  induction ps generalizing acc with
  | nil => simp [computeAll, bound]
  | cons p ps ih =>
    have hp := hlen p (List.mem_cons_self p ps)
    have hps : ∀ q ∈ ps,
        (l.get_feature_vector q.1).1.length = (r.get_feature_vector q.2).1.length :=
      fun q hq => hlen q (List.mem_cons_of_mem p hq)
    rw [computeAll, compute_bound_snd log l r acc p.1 p.2 hp]
    obtain ⟨h1, h2, h3⟩ := ih _ hps
    refine ⟨h1, ?_, h3⟩
    rw [h2]
    simp [callsOf, List.flatMap_cons]

theorem computeAll_no_leak_witness :
    (∀ p ∈ [((0 : Int), (1 : Int)), (1, 0), (0, 1)],
      ((CSimpleFeatures.ofList [[1, 2], [3, 4]] true : CSimpleFeatures ℝ).get_feature_vector
          p.1).1.length
        = ((CSimpleFeatures.ofList [[5, 6], [7, 8]] false : CSimpleFeatures ℝ).get_feature_vector
          p.2).1.length)
    ∧ (computeAll Real.log
        (bound (CSimpleFeatures.ofList [[1, 2], [3, 4]] true)
          (CSimpleFeatures.ofList [[5, 6], [7, 8]] false) Accessor.empty)
        [(0, 1), (1, 0), (0, 1)]).accessor.outstanding = 0 :=
  ⟨by decide,
   (computeAll_no_leak Real.log (CSimpleFeatures.ofList [[1, 2], [3, 4]] true)
      (CSimpleFeatures.ofList [[5, 6], [7, 8]] false) Accessor.empty
      [(0, 1), (1, 0), (0, 1)] (by decide)).1⟩

/-- C7: `compute` leaves the binding (`lhs`, `rhs`, and with them the stored vectors) as it
found it and keeps no state between calls: calling `compute(i, j)` again on the state the
first call left behind gives the same outcome as the first call. -/
theorem compute_twice (log : α → α) (s : State α) (i j : Int) :
    (compute log s i j).2.metric = s.metric
    ∧ (compute log (compute log s i j).2 i j).1 = (compute log s i j).1
    ∧ (compute log (compute log s i j).2 i j).2.metric = s.metric := by
  refine ⟨compute_metric log s i j, ?_, ?_⟩
  · exact compute_fst_congr log _ _ i j (compute_metric log s i j)
  · rw [compute_metric, compute_metric]

end CJensenMetric

/-! ## Binding and release (C8-C10) -/

namespace CJensenMetric

variable {α : Type}

/-- C8: `init(l, r)` fails whenever `l` or `r` is not a float64 simple-vector collection,
and the failed `init` stores no reference: the object is left as it was, so an unbound
object stays unbound; the two-collection constructor, which runs `init` on a fresh object,
then yields an unbound object. -/
theorem init_type_mismatch (m : CJensenMetric α) (l r : CFeatures α)
    (h : l.isSimple = false ∨ r.isSimple = false) :
    (init m l r).1 = false
    ∧ (init m l r).2 = m
    ∧ (init (unbound : CJensenMetric α) l r).2.lhs = none
    ∧ (init (unbound : CJensenMetric α) l r).2.rhs = none
    ∧ (mk_lr l r).lhs = none
    ∧ (mk_lr l r).rhs = none := by
  have hc : (l.isSimple && r.isSimple) = false := by
    rcases h with h | h <;> simp [h]
  simp [init, mk_lr, CSimpleDistance_init, hc, unbound]

theorem init_type_mismatch_witness :
    ((CFeatures.other : CFeatures ℝ).isSimple = false
      ∨ (CFeatures.simple (CSimpleFeatures.ofList [[1]] false) : CFeatures ℝ).isSimple = false)
    ∧ (init (unbound : CJensenMetric ℝ) CFeatures.other
        (CFeatures.simple (CSimpleFeatures.ofList [[1]] false))).1 = false
    ∧ (mk_lr (CFeatures.other : CFeatures ℝ)
        (CFeatures.simple (CSimpleFeatures.ofList [[1]] false))).lhs = none :=
  ⟨Or.inl rfl,
   (init_type_mismatch unbound CFeatures.other
      (CFeatures.simple (CSimpleFeatures.ofList [[1]] false)) (Or.inl rfl)).1,
   (init_type_mismatch (unbound : CJensenMetric ℝ) CFeatures.other
      (CFeatures.simple (CSimpleFeatures.ofList [[1]] false)) (Or.inl rfl)).2.2.2.2.1⟩

/-- C9 (as stated, refuted): on the object built from two float64 simple collections,
it is not the case that both references are unset after `cleanup`. -/
theorem cleanup_keeps_lhs :
    ¬ ((cleanup (mk_lr (CFeatures.simple (CSimpleFeatures.ofList [[1]] false))
          (CFeatures.simple (CSimpleFeatures.ofList [[2]] false)) : CJensenMetric ℝ)).lhs = none
      ∧ (cleanup (mk_lr (CFeatures.simple (CSimpleFeatures.ofList [[1]] false))
          (CFeatures.simple (CSimpleFeatures.ofList [[2]] false)) : CJensenMetric ℝ)).rhs = none)
    := by
  simp [cleanup, mk_lr, init, CSimpleDistance_init, CFeatures.isSimple]

/-- C9 (amended): `cleanup` has an empty body, so it stores nothing and clears nothing:
after `cleanup`, and after the destructor body that calls it, `lhs` and `rhs` are what
they were before; on an unbound object both stay unset. -/
theorem cleanup_keeps_references (m : CJensenMetric α) :
    (cleanup m).lhs = m.lhs ∧ (cleanup m).rhs = m.rhs
    ∧ (destroy m).lhs = m.lhs ∧ (destroy m).rhs = m.rhs
    ∧ (cleanup (unbound : CJensenMetric α)).lhs = none
    ∧ (cleanup (unbound : CJensenMetric α)).rhs = none :=
  ⟨rfl, rfl, rfl, rfl, rfl, rfl⟩

/-- C10: `cleanup` is idempotent, `cleanup (cleanup m) = cleanup m` for every object state,
and, being a total function without an error outcome, returns the unbound state unchanged. -/
theorem cleanup_idempotent (m : CJensenMetric α) :
    cleanup (cleanup m) = cleanup m
    ∧ cleanup (unbound : CJensenMetric α) = unbound :=
  ⟨rfl, rfl⟩

end CJensenMetric

/-! ## Persistence hooks (C11) -/

namespace CJensenMetric

variable {α : Type}

/-- C11 (as stated, refuted): on the unbound object and the empty stream, `save_init` and
`load_init` both return `false`, not the success signal `true`. -/
theorem save_load_init_return_false :
    (save_init (unbound : CJensenMetric ℝ) { bytes := [] }).1 = false
    ∧ (load_init (unbound : CJensenMetric ℝ) { bytes := [] }).1 = false :=
  ⟨rfl, rfl⟩

/-- C11 (amended): `save_init(dest)` and `load_init(src)` are no-ops that leave the binding
and the stream unchanged and return `false` for every object, sink and source. -/
theorem save_load_init_noop (m : CJensenMetric α) (f : FILE) :
    save_init m f = (false, m, f) ∧ load_init m f = (false, m, f) :=
  ⟨rfl, rfl⟩

end CJensenMetric

/-! ## The Minkowski formula (C12-C15) -/

namespace CMinkowskiMetric

theorem minkowski_of_length_eq (pow : ℝ → ℝ → ℝ) (m : CMinkowskiMetric ℝ) (a b : List ℝ)
    (hlen : a.length = b.length) :
    compute pow m a b
      = .ok (pow (∑ t in Finset.range a.length, pow |a.getD t 0 - b.getD t 0| m.k)
          (1 / m.k)) := by
  simp [compute, ASSERT, hlen]

/-- C12: for equal-length vectors and `k = 2` the Minkowski formula
`(Σ_t |a_t - b_t|^k)^(1/k)` is the Euclidean distance `sqrt (Σ_t (a_t - b_t)^2)`. -/
theorem minkowski_two_eq_euclidean (a b : List ℝ) (hlen : a.length = b.length) :
    compute Real.rpow { k := 2 } a b
      = .ok (Real.sqrt (∑ t in Finset.range a.length, (a.getD t 0 - b.getD t 0) ^ 2)) := by
  rw [minkowski_of_length_eq Real.rpow _ a b hlen, Real.sqrt_eq_rpow]
  simp only [Real.rpow_eq_pow, Real.rpow_two, sq_abs]

theorem minkowski_two_eq_euclidean_witness :
    ([1, 2] : List ℝ).length = ([4, 6] : List ℝ).length
    ∧ compute Real.rpow { k := 2 } [1, 2] [4, 6]
      = .ok (Real.sqrt (∑ t in Finset.range ([1, 2] : List ℝ).length,
          (([1, 2] : List ℝ).getD t 0 - ([4, 6] : List ℝ).getD t 0) ^ 2)) :=
  ⟨rfl, minkowski_two_eq_euclidean [1, 2] [4, 6] rfl⟩

/-- C13: for equal-length vectors and `k = 1` the Minkowski formula
`(Σ_t |a_t - b_t|^k)^(1/k)` is the Manhattan distance `Σ_t |a_t - b_t|`. -/
theorem minkowski_one_eq_manhattan (a b : List ℝ) (hlen : a.length = b.length) :
    compute Real.rpow { k := 1 } a b
      = .ok (∑ t in Finset.range a.length, |a.getD t 0 - b.getD t 0|) := by
  rw [minkowski_of_length_eq Real.rpow _ a b hlen]
  simp only [Real.rpow_eq_pow, Real.rpow_one, div_one]

theorem minkowski_one_eq_manhattan_witness :
    ([1, 2] : List ℝ).length = ([4, 6] : List ℝ).length
    ∧ compute Real.rpow { k := 1 } [1, 2] [4, 6]
      = .ok (∑ t in Finset.range ([1, 2] : List ℝ).length,
          |([1, 2] : List ℝ).getD t 0 - ([4, 6] : List ℝ).getD t 0|) :=
  ⟨rfl, minkowski_one_eq_manhattan [1, 2] [4, 6] rfl⟩

/-- C14 (as stated, refuted): with exponent `k = 0` the Minkowski formula of the vector
`[1]` with itself is `1`, not `0` (`|1-1|^0 = 1` and `1^(1/0) = 1`). -/
theorem minkowski_self_zero_exponent :
    compute Real.rpow { k := 0 } [1] [1] = .ok 1
    ∧ compute Real.rpow { k := 0 } [1] [1] ≠ .ok 0 := by
  have h : compute Real.rpow { k := 0 } [1] [1] = .ok 1 := by
    rw [minkowski_of_length_eq Real.rpow _ [1] [1] rfl]
    simp
  refine ⟨h, ?_⟩
  rw [h]
  intro hc
  injection hc with hc
  exact one_ne_zero hc

/-- C14 (amended): for every exponent `k > 0` and every vector `a`, the Minkowski formula
`(Σ_t |a_t - a_t|^k)^(1/k)` of `a` with itself is 0. -/
theorem minkowski_self_eq_zero (k : ℝ) (hk : 0 < k) (a : List ℝ) :
    compute Real.rpow { k := k } a a = .ok 0 := by
  rw [minkowski_of_length_eq Real.rpow _ a a rfl]
  have hk0 : k ≠ 0 := ne_of_gt hk
  have hk' : 1 / k ≠ 0 := one_div_ne_zero hk0
  simp only [Real.rpow_eq_pow, sub_self, abs_zero, Real.zero_rpow hk0, Finset.sum_const_zero,
    Real.zero_rpow hk']

theorem minkowski_self_eq_zero_witness :
    (0 : ℝ) < 3 ∧ compute Real.rpow { k := 3 } [1, 2] [1, 2] = .ok 0 :=
  ⟨by norm_num, minkowski_self_eq_zero 3 (by norm_num) [1, 2]⟩

/-- C15: for every exponent `k` and equal-length vectors the Minkowski formula is
symmetric: `d(a,b)` and `d(b,a)` are the same value. -/
theorem minkowski_symm (k : ℝ) (a b : List ℝ) (hlen : a.length = b.length) :
    ∃ d : ℝ, compute Real.rpow { k := k } a b = .ok d
      ∧ compute Real.rpow { k := k } b a = .ok d := by
  refine ⟨_, minkowski_of_length_eq Real.rpow _ a b hlen, ?_⟩
  rw [minkowski_of_length_eq Real.rpow _ b a hlen.symm, hlen]
  simp only [abs_sub_comm]

theorem minkowski_symm_witness :
    ([1, 2] : List ℝ).length = ([4, 6] : List ℝ).length
    ∧ ∃ d : ℝ, compute Real.rpow { k := 3 } [1, 2] [4, 6] = .ok d
      ∧ compute Real.rpow { k := 3 } [4, 6] [1, 2] = .ok d :=
  ⟨rfl, minkowski_symm 3 [1, 2] [4, 6] rfl⟩

end CMinkowskiMetric

/-! ## The triangle inequality (C19) -/

namespace CJensenMetric

/-- C19: the value computed by `CJensenMetric` violates the triangle inequality: on the
collection holding `a = [0]`, `b = [1]`, `c = [2]`,
`compute(a, c) > compute(a, b) + compute(b, c)`. -/
theorem compute_triangle_fails :
    ∃ dac dab dbc : ℝ,
      (compute Real.log (bound (CSimpleFeatures.ofList [[0], [1], [2]] false)
        (CSimpleFeatures.ofList [[0], [1], [2]] false) Accessor.empty) 0 2).1 = .ok dac
      ∧ (compute Real.log (bound (CSimpleFeatures.ofList [[0], [1], [2]] false)
        (CSimpleFeatures.ofList [[0], [1], [2]] false) Accessor.empty) 0 1).1 = .ok dab
      ∧ (compute Real.log (bound (CSimpleFeatures.ofList [[0], [1], [2]] false)
        (CSimpleFeatures.ofList [[0], [1], [2]] false) Accessor.empty) 1 2).1 = .ok dbc
      ∧ dac > dab + dbc := by
  refine ⟨2 * Real.log 2, Real.log 2, Real.log (2 / 3) + 2 * Real.log (4 / 3), ?_, ?_, ?_, ?_⟩
  · rw [compute_bound_fst]
    simp [CSimpleFeatures.ofList, loop, loopBody, List.range_succ]
    norm_num
  · rw [compute_bound_fst]
    simp [CSimpleFeatures.ofList, loop, loopBody, List.range_succ]
    norm_num
    rw [one_div, Real.log_inv, neg_neg]
  · rw [compute_bound_fst]
    simp [CSimpleFeatures.ofList, loop, loopBody, List.range_succ]
    norm_num
  · have h1 : (2 : ℝ) * Real.log (4 / 3) = Real.log ((4 / 3) ^ 2) := by
      rw [Real.log_pow]
      norm_num
    have h2 : Real.log (2 / 3) + Real.log ((4 / 3) ^ 2) = Real.log (2 / 3 * (4 / 3) ^ 2) := by
      rw [Real.log_mul (by norm_num) (by norm_num)]
    have h3 : Real.log (2 / 3 * (4 / 3) ^ 2) < Real.log 2 :=
      Real.log_lt_log (by norm_num) (by norm_num)
    rw [h1, h2]
    linarith

end CJensenMetric

end Shogun
